import Mathlib

/-!
Verification of the deploy-sys Atomic Release Orchestrator.

This file gives a shallow embedding of the deployment system's core
operations (version ledger updates, rollback target selection, retention
cleanup, the deploy/rollback pipelines and their CLI exit behaviour) and
proves or refutes the specification's claims about them.

Conventions of the embedding:
* JavaScript objects become structures; JSON `null`/`undefined` become `Option`.
* Timestamps are modelled as `Nat` (the value of `new Date(ts).getTime()`);
  the ISO-string representation used on disk is strictly monotone in this
  value, so every comparison in the source is preserved.
* Thrown exceptions become explicit error values; operations that both throw
  and mutate state return a pair of an optional error and the state reached.
* The filesystem relevant to the claims is, per deployment target, the set
  of release directories under `releases/`, the `current` symlink, and the
  version-ledger file.  I/O primitives that can fail (`fs.remove`, health
  checks, `pm2` calls, ...) are driven by explicit failure oracles so that
  a single definition covers both the all-succeed run and any failing run.
-/

namespace DeploySys

/-- A ledger entry, as created by `updateVersionTracking` in
`src/deploy/utils/versions.js` (fields `version`, `commit`, `timestamp`,
`packages`, `status`, `releasePath`). -/
structure Deployment where
  version : String
  commit : String
  timestamp : Nat
  packages : List String
  status : String
  releasePath : String
deriving Repr, DecidableEq, Inhabited

/-- The version-ledger file contents: `{current, deployments}`
(`src/deploy/utils/versions.js`). -/
structure VersionData where
  current : Option String
  deployments : List Deployment
deriving Repr, DecidableEq, Inhabited

/-- The fresh ledger used when the file is absent or corrupted
(`versions.js` lines 15-27 and 60-68). -/
def emptyVersionData : VersionData := { current := none, deployments := [] }

/-- The `deployment` argument passed to `updateVersionTracking` by
`deploy` (commands/deploy.js step 11) and `rollback` (step 9). -/
structure DeploymentInput where
  version : String
  commit : String
  timestamp : Nat
  releasePath : String
deriving Repr, DecidableEq, Inhabited

/-- The `newDeployment` record built in `updateVersionTracking`
(`versions.js` lines 31-38): status `active`, packages `[packageName]`. -/
def mkRecord (packageName : String) (dep : DeploymentInput) : Deployment :=
  { version := dep.version
    commit := dep.commit
    timestamp := dep.timestamp
    packages := [packageName]
    status := "active"
    releasePath := dep.releasePath }

/-- The in-place mutation applied to each existing entry by
`updateVersionTracking` (`versions.js` lines 41-45): a previously active
entry whose `packages` contains the package is flipped to inactive. -/
def flipActive (packageName : String) (d : Deployment) : Deployment :=
  if d.status == "active" && d.packages.contains packageName then
    { d with status := "inactive" }
  else d

/-- Model of `updateVersionTracking` (`versions.js` lines 5-55), as the pure state
transformation on the ledger contents: flip previous active entries for the
package, unshift the new active record, set `current` to the new version
label.  (The read-ledger-file and persist steps are modelled separately
where a claim is about them.) -/
def updateVersionTracking (packageName : String) (dep : DeploymentInput)
    (versionData : VersionData) : VersionData :=
  { current := some dep.version
    deployments :=
      mkRecord packageName dep :: versionData.deployments.map (flipActive packageName) }

/-- Number of entries with `status = "active"`. -/
def countActive (l : List Deployment) : Nat :=
  (l.filter (fun d => d.status == "active")).length

/-- The ledger invariant claimed by the spec: at most one active entry. -/
def atMostOneActive (v : VersionData) : Prop := countActive v.deployments ≤ 1

instance (v : VersionData) : Decidable (atMostOneActive v) := by
  unfold atMostOneActive; infer_instance

/-- Every entry in the ledger is scoped to the given package, as is true of
every ledger ever produced by `updateVersionTracking` for that package's
version file (entries are created with `packages = [packageName]`). -/
def targetScoped (packageName : String) (v : VersionData) : Prop :=
  ∀ d ∈ v.deployments, packageName ∈ d.packages

instance (packageName : String) (v : VersionData) :
    Decidable (targetScoped packageName v) := by
  unfold targetScoped; infer_instance

/-- Folding a sequence of record operations from a given ledger. -/
def applyRecords (packageName : String) (ds : List DeploymentInput)
    (v : VersionData) : VersionData :=
  ds.foldl (fun acc d => updateVersionTracking packageName d acc) v

/-! ### Timestamp-descending sort

The source repeatedly writes
`list.sort((a, b) => new Date(b.timestamp).getTime() - new Date(a.timestamp).getTime())`.
`Array.prototype.sort` is a stable sort; we model it as a stable insertion
sort into a descending-by-timestamp list: each element is placed after all
already-placed elements with a greater-or-equal timestamp. -/

/-- Insert `x` into a descending list, after every element whose timestamp
is greater than or equal to `x`'s (stability for equal timestamps). -/
def insDesc (x : Deployment) : List Deployment → List Deployment
  | [] => [x]
  | y :: ys => if x.timestamp ≤ y.timestamp then y :: insDesc x ys else x :: y :: ys

/-- Stable descending-by-timestamp sort (model of the JS comparator
`(a, b) => b.timestamp - a.timestamp`). -/
def sortDesc (l : List Deployment) : List Deployment :=
  l.foldl (fun acc x => insDesc x acc) []

/-- The order invariant maintained by the sort: each element's timestamp is
greater than or equal to every later element's. -/
def DescSorted (l : List Deployment) : Prop :=
  l.Pairwise (fun a b => b.timestamp ≤ a.timestamp)

deriving instance DecidableEq for Except

/-! ### Rollback target selection (`src/deploy/utils/rollback.js`) -/

/-- The distinct error conditions raised by the rollback path, one per
`throw` site in `rollback.js` and `commands/rollback.js`. -/
inductive RollbackError where
  /-- Thrown as "No deployment history found" (`rollback.js` line 13). -/
  | noHistory
  /-- Thrown as "No previous deployments available for rollback" (line 52). -/
  | noTarget
  /-- Thrown as "No deployments found for commit: ..." (line 31). -/
  | commitNotFound (commit : String)
  /-- Thrown as "No deployment attempt found for timestamp: ..." (line 73). -/
  | attemptNotFound (attempt : String)
  /-- Thrown as "Rollback target missing release path" (line 83). -/
  | missingReleasePath
  /-- Thrown as "Rollback target directory not found: ..." (line 89). -/
  | targetDirNotFound (path : String)
  /-- Thrown as "Invalid rollback target: missing packages directory in ..."
  (line 98). -/
  | invalidTargetLayout (path : String)
  /-- Environment-file copy failure during rollback step 4. -/
  | copyEnvFailed
  /-- PM2 reload/start/describe failure during rollback step 7. -/
  | pm2Failed
  /-- Final production health-check failure during rollback step 8. -/
  | healthFailed
deriving Repr, DecidableEq

/-- The `options` object of `findRollbackTarget`: `none` models an absent
or empty (JS-falsy) `--commit`/`--attempt` value. -/
structure RollbackOptions where
  commit : Option String
  attempt : Option String
deriving Repr, DecidableEq

/-- Model of `findPreviousDeployment` (`rollback.js` lines 45-61): most recent entry
whose status is not "active". -/
def findPreviousDeployment (versionHistory : VersionData) :
    Except RollbackError Deployment :=
  let inactiveDeployments :=
    versionHistory.deployments.filter (fun d => d.status != "active")
  match (sortDesc inactiveDeployments).head? with
  | none => .error .noTarget
  | some d => .ok d

/-- Model of JS `String.prototype.startsWith`: `strStartsWith s pre` is
true when `pre` is a leading substring of `s`.  Written as a
character-list prefix test so that concrete instances evaluate (core's
byte-based `String.startsWith` is defined by well-founded recursion). -/
def strStartsWith (s pre : String) : Bool :=
  pre.data.isPrefixOf s.data

/-- The trailing path component of a release path, as computed by
`findSpecificAttempt`: `releasePath.split("/")` last element (split on the
separator character, as a character-list operation). -/
def trailingComponent (releasePath : String) : String :=
  String.mk ((releasePath.data.splitOn (Char.ofNat 47)).getLastD [])

/-- Model of `findSpecificAttempt` (`rollback.js` lines 63-79): the first entry of
`commitDeployments` whose release path's trailing timestamp component
equals the requested attempt timestamp. -/
def findSpecificAttempt (commitDeployments : List Deployment)
    (attemptTimestamp : String) : Except RollbackError Deployment :=
  match commitDeployments.find?
      (fun d => trailingComponent d.releasePath == attemptTimestamp) with
  | none => .error (.attemptNotFound attemptTimestamp)
  | some d => .ok d

/-- The commit filter used by `findRollbackTarget` (lines 24-28):
`deployment.commit === options.commit || deployment.commit.startsWith(options.commit)`
(the requested hash may be a shortened form of the stored full hash). -/
def commitMatches (requested : String) (d : Deployment) : Bool :=
  d.commit == requested || strStartsWith d.commit requested

/-- The selection criterion as worded by the specification for claim C7:
an entry "whose commit equals or is a prefix of a supplied hash" — i.e. the
stored commit is a prefix of the requested hash.  Defined only to compare
against `commitMatches`, which is what the code implements. -/
def specCommitMatches (requested : String) (d : Deployment) : Bool :=
  d.commit == requested || strStartsWith requested d.commit

/-- Model of `findRollbackTarget` (`rollback.js` lines 5-43).  The ledger has
already been read via `getVersionHistory`.  The final `none` branch of the
head lookup is unreachable (the filtered list was checked nonempty). -/
def findRollbackTarget (versionHistory : VersionData)
    (options : RollbackOptions) : Except RollbackError Deployment :=
  if versionHistory.deployments.isEmpty then .error .noHistory
  else
    match options.commit with
    | none => findPreviousDeployment versionHistory
    | some c =>
      let commitDeployments := versionHistory.deployments.filter (commitMatches c)
      if commitDeployments.isEmpty then .error (.commitNotFound c)
      else
        match options.attempt with
        | some a => findSpecificAttempt commitDeployments a
        | none =>
          match (sortDesc commitDeployments).head? with
          | some d => .ok d
          | none => .error (.commitNotFound c)

/-- Model of `validateRollbackTarget` (`rollback.js` lines 81-104), over the set of
existing directory paths `disk`: checks the target's release path is set
(non-empty, JS truthiness), its directory exists, and it contains a
`packages` subdirectory. -/
def validateRollbackTarget (disk : List String) (rollbackTarget : Deployment) :
    Except RollbackError Unit :=
  if rollbackTarget.releasePath.isEmpty then .error .missingReleasePath
  else if !(disk.contains rollbackTarget.releasePath) then
    .error (.targetDirNotFound rollbackTarget.releasePath)
  else if !(disk.contains (rollbackTarget.releasePath ++ "/packages")) then
    .error (.invalidTargetLayout rollbackTarget.releasePath)
  else .ok ()

/-! ### Paths (`src/deploy/utils/paths.js`) -/

/-- Comment in the source: "Use short commit hash (first 7 characters) for directory structure"
(`paths.js` line 18). -/
def shortCommit (commit : String) : String := commit.take 7

/-- Model of `getReleasePath` (`paths.js` lines 15-20), relative to the deployment
target's directory: `releases/{shortCommit}/{timestamp}`.  The constant
per-target prefix (base path, environment, package) is dropped since every
claim is about a single target. -/
def getReleasePath (commit : String) (timestamp : String) : String :=
  "releases/" ++ shortCommit commit ++ "/" ++ timestamp

/-! ### Retention (`cleanupDeployments` and friends, `src/deploy/utils/paths.js`
second section / `cleanup.js`)

The on-disk releases tree of one target is modelled as a list of
`(commitDir, attemptDir)` pairs, one per existing release directory,
ordered by filesystem creation time, oldest first (this order stands in
for the `birthtime` stats used by `cleanupAttempts`).  `fs.remove` failures
are driven by the oracle `failRemove : String → Bool`, keyed by the
directory being removed; a failing removal leaves the directory in place
and aborts the enclosing loop with the error (there is no `try`/`catch`
around the loops in the source). -/

/-- Retention limits from `config.js` (`CLEANUP.keepCommits`,
`CLEANUP.keepAttempts`). -/
def keepCommits : Nat := 5

/-- See `keepCommits`. -/
def keepAttempts : Nat := 2

/-- The `reduce` in `cleanupCommits` (lines 67-75): deduplicate the sorted
deployments by commit, keeping first occurrences, as `(commit, timestamp)`
pairs. -/
def uniqueCommits (sorted : List Deployment) : List (String × Nat) :=
  sorted.foldl
    (fun unique d =>
      if unique.any (fun u => u.1 == d.commit) then unique
      else unique ++ [(d.commit, d.timestamp)])
    []

/-- First occurrences of a list of names, modelling a `readdir` listing of
commit directories given the pair-encoded disk. -/
def dedupNames (l : List String) : List String :=
  l.foldl (fun acc x => if acc.contains x then acc else acc ++ [x]) []

/-- The removal loop of `cleanupCommits` (lines 87-91): remove each
directory in turn; a failing `fs.remove` throws out of the loop, leaving
that directory and all later candidates on disk. -/
def removeLoop (failRemove : String → Bool) :
    List String → List String → Option String × List String
  | [], disk => (none, disk)
  | d :: rest, disk =>
    if failRemove d then (some d, disk)
    else removeLoop failRemove rest (disk.filter (fun x => x != d))

/-- Model of `cleanupCommits` (lines 51-98) over the `readdir` listing `commitDirs`
and the ledger `versionHistory`: if more than `keepCommits` commit
directories exist, keep the directories named in the keep set computed
from the ledger's deduplicated timestamp-sorted commits and remove the
rest.  Returns the error of the first failing removal (if any) and the
resulting listing. -/
def cleanupCommits (failRemove : String → Bool) (commitDirs : List String)
    (versionHistory : VersionData) : Option String × List String :=
  if commitDirs.length ≤ keepCommits then (none, commitDirs)
  else
    let trackedCommits := uniqueCommits (sortDesc versionHistory.deployments)
    let commitsToKeep := (trackedCommits.take keepCommits).map Prod.fst
    let commitsToRemove := commitDirs.filter (fun d => !(commitsToKeep.contains d))
    removeLoop failRemove commitsToRemove commitDirs

/-- The removal loop at the end of `cleanupAttempts` (lines 137-140), over
pair-encoded disk state; `failRemove` is keyed by `commitDir/attemptDir`. -/
def attemptRemoveLoop (failRemove : String → Bool) (commitDir : String) :
    List String → List (String × String) → Option String × List (String × String)
  | [], disk => (none, disk)
  | a :: rest, disk =>
    if failRemove (commitDir ++ "/" ++ a) then (some (commitDir ++ "/" ++ a), disk)
    else
      attemptRemoveLoop failRemove commitDir rest
        (disk.filter (fun p => !(p.1 == commitDir && p.2 == a)))

/-- The per-commit body of `cleanupAttempts` (lines 100-148): for each
commit directory (skipping ones no longer present), if it has more than
`keepAttempts` attempt directories, sort them newest-first by creation
time and remove everything beyond the limit.  With the disk held in
creation order (oldest first), the newest-first list is the reverse, so
the removal candidates are all but the last `keepAttempts` attempts. -/
def cleanupAttemptsGo (failRemove : String → Bool) :
    List String → List (String × String) → Option String × List (String × String)
  | [], disk => (none, disk)
  | c :: rest, disk =>
    if !(disk.any (fun p => p.1 == c)) then cleanupAttemptsGo failRemove rest disk
    else
      let attemptDirs := (disk.filter (fun p => p.1 == c)).map Prod.snd
      if attemptDirs.length ≤ keepAttempts then cleanupAttemptsGo failRemove rest disk
      else
        match attemptRemoveLoop failRemove c (attemptDirs.reverse.drop keepAttempts) disk with
        | (some e, diskAfter) => (some e, diskAfter)
        | (none, diskAfter) => cleanupAttemptsGo failRemove rest diskAfter

/-- Model of `cleanupAttempts` (lines 100-148): iterate over a fresh `readdir` of
the commit directories. -/
def cleanupAttempts (failRemove : String → Bool) (disk : List (String × String)) :
    Option String × List (String × String) :=
  cleanupAttemptsGo failRemove (dedupNames (disk.map Prod.fst)) disk

/-- Model of `cleanupDeployments` (lines 31-49): commit-level cleanup from the
version history, then attempt-level cleanup; an error in the first aborts
before the second and propagates (no `try`/`catch` in the source).  An
absent releases directory is the empty disk, for which both levels are
no-ops. -/
def cleanupDeployments (failRemove : String → Bool) (versionHistory : VersionData)
    (disk : List (String × String)) : Option String × List (String × String) :=
  let listing := cleanupCommits failRemove (dedupNames (disk.map Prod.fst)) versionHistory
  let diskAfter := disk.filter (fun p => listing.2.contains p.1)
  match listing.1 with
  | some e => (some e, diskAfter)
  | none => cleanupAttempts failRemove diskAfter

/-! ### The deploy pipeline (`src/deploy/commands/deploy.js`) -/

/-- The sequentially ordered failable operations of the deploy pipeline;
each corresponds to an `await` in `deploy` that can throw.  Retention
failures are driven by `failRemove` instead, since they arise inside the
cleanup loops. -/
inductive DeployStep where
  | validating
  | staging
  | extract
  | copyEnv
  | install
  | isolatedHealth
  | promoting
  | serviceReload
  | prodHealth
  | cdnHealth
  | ledgerRecord
deriving Repr, DecidableEq

/-- The error propagated out of `deploy` (re-thrown after the `catch`
block's compensating cleanup). -/
inductive DeployError where
  | step (s : DeployStep)
  | retention (dir : String)
deriving Repr, DecidableEq

/-- The success object returned by `deploy` (`return {success: true, ...}`);
on a dry run `deploy` returns `undefined` instead, modelled by `none` at
the call site. -/
structure DeployResult where
  success : Bool
deriving Repr, DecidableEq

/-- What `deploy` communicates to its caller: a normal return (with
`undefined` for the dry-run path) or a thrown error. -/
inductive DeployOutcome where
  | ok (result : Option DeployResult)
  | err (e : DeployError)
deriving Repr, DecidableEq

/-- Per-target filesystem state: the `current` symlink, the version-ledger
file (`none` for absent-or-corrupt, which `getVersionHistory` reads as the
empty ledger), and the release directories as `(commitDir, attemptDir)`
pairs in creation order. -/
structure FsTarget where
  currentLink : Option String
  ledgerFile : Option VersionData
  disk : List (String × String)
deriving Repr, DecidableEq

/-- Model of `getVersionHistory` (`versions.js` lines 57-69): absent or unreadable
file yields the empty ledger. -/
def getVersionHistory (s : FsTarget) : VersionData :=
  s.ledgerFile.getD emptyVersionData

/-- Model of `cleanupFailedDeployment` (`paths.js` cleanup section lines 150-157):
remove the release directory of the failed attempt if it exists. -/
def cleanupFailedDeployment (rp : String × String) (s : FsTarget) : FsTarget :=
  { s with disk := s.disk.filter (fun p => !(p == rp)) }

/-- Inputs of one `deploy` invocation: the manifest fields that matter to
the per-target state (package name and full commit hash), the wall-clock
derived `deploymentTimestamp` directory name, the ledger timestamp for the
new entry, and the `--dry-run` flag. -/
structure DeployArgs where
  packageName : String
  commit : String
  deploymentTimestamp : String
  nowTimestamp : Nat
  dryRun : Bool
deriving Repr, DecidableEq

/-- The `versionInfo` label of deploy step 11:
`${deploymentTimestamp}-${commit.substring(0, 7)}`. -/
def versionInfo (a : DeployArgs) : String :=
  a.deploymentTimestamp ++ "-" ++ shortCommit a.commit

/-- The ledger entry input recorded by deploy step 11. -/
def deployLedgerInput (a : DeployArgs) : DeploymentInput :=
  { version := versionInfo a
    commit := a.commit
    timestamp := a.nowTimestamp
    releasePath := getReleasePath a.commit a.deploymentTimestamp }

/-- The release directory of the attempt, as a `(commitDir, attemptDir)`
pair. -/
def releasePair (a : DeployArgs) : String × String :=
  (shortCommit a.commit, a.deploymentTimestamp)

/-- State after deploy step 2 (`fs.ensureDir(releasePath)`): the attempt's
release directory exists (a no-op if it already did). -/
def stagedState (a : DeployArgs) (s0 : FsTarget) : FsTarget :=
  { s0 with
    disk :=
      if s0.disk.contains (releasePair a) then s0.disk
      else s0.disk ++ [releasePair a] }

/-- State after deploy step 7 (`updateSymlink(releasePath, paths.current)`
completed): the `current` link names the new release. -/
def promotedState (a : DeployArgs) (s0 : FsTarget) : FsTarget :=
  { stagedState a s0 with
    currentLink := some (getReleasePath a.commit a.deploymentTimestamp) }

/-- State after deploy step 11 (`updateVersionTracking` persisted): the
ledger file holds the updated history. -/
def recordedState (a : DeployArgs) (s0 : FsTarget) : FsTarget :=
  { promotedState a s0 with
    ledgerFile :=
      some (updateVersionTracking a.packageName (deployLedgerInput a)
        (getVersionHistory (promotedState a s0))) }

/-- The deploy pipeline (`deploy` in `commands/deploy.js` /
`src/unnamed/part_001` lines 27-189), as a function of the failure
oracles: `fail` marks the throwing pipeline operations (the first one in
pipeline order is the one that throws), and `failRemove` the failing
`fs.remove` calls inside retention.  Mirrors the source's control flow: a
dry run returns (`undefined`) right after validation; from `Staging` on,
any thrown error — including one propagating out of `cleanupDeployments` —
reaches the `catch` block, which runs `cleanupFailedDeployment` on the
attempt's release directory and re-throws; a failure while `updateSymlink`
is repointing the link can leave the link removed but not yet recreated. -/
def deploy (fail : DeployStep → Bool) (failRemove : String → Bool)
    (a : DeployArgs) (s0 : FsTarget) : DeployOutcome × FsTarget :=
  if fail .validating then (.err (.step .validating), s0)
  else if a.dryRun then (.ok none, s0)
  else if fail .staging then
    (.err (.step .staging), cleanupFailedDeployment (releasePair a) s0)
  else if fail .extract then
    (.err (.step .extract), cleanupFailedDeployment (releasePair a) (stagedState a s0))
  else if fail .copyEnv then
    (.err (.step .copyEnv), cleanupFailedDeployment (releasePair a) (stagedState a s0))
  else if fail .install then
    (.err (.step .install), cleanupFailedDeployment (releasePair a) (stagedState a s0))
  else if fail .isolatedHealth then
    (.err (.step .isolatedHealth), cleanupFailedDeployment (releasePair a) (stagedState a s0))
  else if fail .promoting then
    (.err (.step .promoting),
      cleanupFailedDeployment (releasePair a) { stagedState a s0 with currentLink := none })
  else if fail .serviceReload then
    (.err (.step .serviceReload), cleanupFailedDeployment (releasePair a) (promotedState a s0))
  else if fail .prodHealth then
    (.err (.step .prodHealth), cleanupFailedDeployment (releasePair a) (promotedState a s0))
  else if fail .cdnHealth then
    (.err (.step .cdnHealth), cleanupFailedDeployment (releasePair a) (promotedState a s0))
  else if fail .ledgerRecord then
    (.err (.step .ledgerRecord), cleanupFailedDeployment (releasePair a) (promotedState a s0))
  else
    match cleanupDeployments failRemove (getVersionHistory (recordedState a s0))
        (recordedState a s0).disk with
    | (some d, diskAfter) =>
      (.err (.retention d),
        cleanupFailedDeployment (releasePair a) { recordedState a s0 with disk := diskAfter })
    | (none, diskAfter) =>
      (.ok (some { success := true }), { recordedState a s0 with disk := diskAfter })

/-- The deploy CLI action (`bin/deploy.js` lines 50-58):
`const result = await deploy(options); if (result?.success) exit(0) else exit(1)`,
with any thrown error caught and mapped to `exit(1)`. -/
def deployCliExitCode (outcome : DeployOutcome) : Nat :=
  match outcome with
  | .ok (some r) => if r.success then 0 else 1
  | .ok none => 1
  | .err _ => 1

/-! ### The current-pointer write (`updateSymlink`, `src/deploy/utils/fileOps.js`
lines 46-73) and the ledger-file write (`fs.writeJson`, `versions.js` line 52) -/

/-- The sequence of states of the `current` symlink that a concurrent
reader can observe during `updateSymlink(target, linkPath)`: the source
first removes any existing link (`fs.remove`), then creates the new one
(`fs.symlink`) — two separate filesystem operations, with no temp-link or
rename.  (The `EEXIST` retry branch is unreachable in this single-writer
model: after the removal the path is free.) -/
def updateSymlinkStates (target : String) (link : Option String) :
    List (Option String) :=
  if link.isSome then [link, none, some target]
  else [link, some target]

/-- Observable views of the ledger file during a write. -/
inductive LedgerFileView where
  | absent
  | torn
  | content (v : VersionData)
deriving Repr, DecidableEq

/-- The states of the ledger file a concurrent reader can observe during
`updateVersionTracking`'s persist step, `fs.writeJson(versionFile, ...)`:
a plain in-place open-truncate-write, so between the start and the end of
the write the file can be seen truncated or partially written (`torn`).
There is no write-to-temp-then-rename in the source. -/
def writeLedgerStates (v : VersionData) (f : LedgerFileView) : List LedgerFileView :=
  [f, .torn, .content v]

/-- An atomic temp-write-then-rename, for contrast: a reader sees only the
old view or the new contents. -/
def writeLedgerAtomicStates (v : VersionData) (f : LedgerFileView) : List LedgerFileView :=
  [f, .content v]

/-! ### The rollback pipeline (`src/deploy/commands/rollback.js`) -/

/-- Per-target state as seen by the rollback command: the `current`
symlink, the ledger file, and the set of existing directory paths (release
directories and their `packages` subdirectories). -/
structure HostState where
  currentLink : Option String
  ledgerFile : Option VersionData
  dirs : List String
deriving Repr, DecidableEq

/-- The ledger as read by the rollback command via `getVersionHistory`. -/
def readHistory (s : HostState) : VersionData :=
  s.ledgerFile.getD emptyVersionData

/-- Inputs of one `rollback` invocation. -/
structure RollbackArgs where
  packageName : String
  commit : Option String
  attempt : Option String
  nowTimestamp : Nat
deriving Repr, DecidableEq

/-- The rollback pipeline (`rollback` in `commands/rollback.js` lines
14-142): find the target, validate it, copy the environment file, repoint
the symlink, reload the service, re-verify health, record the rollback in
the ledger.  Oracles mark the failable external operations after
validation.  The returned state is the state at normal completion or at
the point the error was thrown. -/
def rollback (failCopyEnv failPm2 failHealth : Bool) (a : RollbackArgs)
    (s : HostState) : Option RollbackError × HostState :=
  match findRollbackTarget (readHistory s)
      { commit := a.commit, attempt := a.attempt } with
  | .error e => (some e, s)
  | .ok rollbackTarget =>
    match validateRollbackTarget s.dirs rollbackTarget with
    | .error e => (some e, s)
    | .ok _ =>
      if failCopyEnv then (some .copyEnvFailed, s)
      else
        let s1 : HostState := { s with currentLink := some rollbackTarget.releasePath }
        if failPm2 then (some .pm2Failed, s1)
        else if failHealth then (some .healthFailed, s1)
        else
          let dep : DeploymentInput :=
            { version := rollbackTarget.version
              commit := rollbackTarget.commit
              timestamp := a.nowTimestamp
              releasePath := rollbackTarget.releasePath }
          (none,
            { s1 with
              ledgerFile :=
                some (updateVersionTracking a.packageName dep (readHistory s1)) })

/-! ### Concrete fixtures used by witnesses and counterexamples

Full 40-character commit hashes with pairwise-distinct 7-character short
forms, and small ledgers/filesystem states built from them. -/

def commitA : String := "aaaaaaa000000000000000000000000000000000"

def commitB : String := "bbbbbbb000000000000000000000000000000000"

def commitC : String := "ccccccc000000000000000000000000000000000"

def commitD : String := "ddddddd000000000000000000000000000000000"

def commitE : String := "eeeeeee000000000000000000000000000000000"

def commitF : String := "fffffff000000000000000000000000000000000"

def commitG : String := "1234567000000000000000000000000000000000"

/-- A ledger entry for package `client`, commit `c`, with the given
version label, timestamp, status and attempt directory. -/
def mkEntry (c : String) (ver : String) (ts : Nat) (st : String)
    (attempt : String) : Deployment :=
  { version := ver
    commit := c
    timestamp := ts
    packages := ["client"]
    status := st
    releasePath := getReleasePath c attempt }

/-- A ledger with six distinct commits, newest (`commitF`, active) first. -/
def exC1Ledger : VersionData :=
  { current := some "2025-09-14-15-00-fffffff"
    deployments :=
      [ mkEntry commitF "2025-09-14-15-00-fffffff" 6 "active" "2025-09-14-15-00"
      , mkEntry commitE "2025-09-13-15-00-eeeeeee" 5 "inactive" "2025-09-13-15-00"
      , mkEntry commitD "2025-09-12-15-00-ddddddd" 4 "inactive" "2025-09-12-15-00"
      , mkEntry commitC "2025-09-11-15-00-ccccccc" 3 "inactive" "2025-09-11-15-00"
      , mkEntry commitB "2025-09-10-15-00-bbbbbbb" 2 "inactive" "2025-09-10-15-00"
      , mkEntry commitA "2025-09-09-15-00-aaaaaaa" 1 "inactive" "2025-09-09-15-00" ] }

/-- The on-disk commit directories matching `exC1Ledger`: the short-hash
directory of each of the six ledger commits. -/
def exC1Dirs : List String :=
  [ shortCommit commitA, shortCommit commitB, shortCommit commitC
  , shortCommit commitD, shortCommit commitE, shortCommit commitF ]

def exDep : DeploymentInput :=
  { version := "2025-09-14-10-00-aaaaaaa"
    commit := commitA
    timestamp := 100
    releasePath := getReleasePath commitA "2025-09-14-10-00" }

def exC9State : FsTarget := { currentLink := none, ledgerFile := none, disk := [] }

/-- A target whose disk holds the six commit directories of `exC1Ledger`'s
six commits (one attempt each) and whose pointer names the active one. -/
def exC3State : FsTarget :=
  { currentLink := some (getReleasePath commitF "2025-09-14-15-00")
    ledgerFile := some exC1Ledger
    disk :=
      [ (shortCommit commitA, "2025-09-09-15-00")
      , (shortCommit commitB, "2025-09-10-15-00")
      , (shortCommit commitC, "2025-09-11-15-00")
      , (shortCommit commitD, "2025-09-12-15-00")
      , (shortCommit commitE, "2025-09-13-15-00")
      , (shortCommit commitF, "2025-09-14-15-00") ] }

/-- A seventh deployment, of the fresh commit `commitG`, onto `exC3State`. -/
def exC3Args : DeployArgs :=
  { packageName := "client"
    commit := commitG
    deploymentTimestamp := "2025-09-15-15-00"
    nowTimestamp := 7
    dryRun := false }

/-- The disk after the C3 run's commit-level retention aborts on its first
candidate: nothing has been removed yet, and the new attempt is staged. -/
def exC3DiskAfter : List (String × String) :=
  exC3State.disk ++ [releasePair exC3Args]

/-- A host whose ledger is `exC1Ledger` but whose disk only holds the
active release: every rollback candidate's directory has been pruned. -/
def exC8State : HostState :=
  { currentLink := some (getReleasePath commitF "2025-09-14-15-00")
    ledgerFile := some exC1Ledger
    dirs :=
      [ getReleasePath commitF "2025-09-14-15-00"
      , getReleasePath commitF "2025-09-14-15-00" ++ "/packages" ] }

def exC9DryArgs : DeployArgs :=
  { packageName := "client"
    commit := commitA
    deploymentTimestamp := "2025-09-14-10-00"
    nowTimestamp := 100
    dryRun := true }

def exC9WetArgs : DeployArgs :=
  { packageName := "client"
    commit := commitA
    deploymentTimestamp := "2025-09-14-10-00"
    nowTimestamp := 100
    dryRun := false }

/-! ## Lemmas -/

lemma flipActive_not_active (packageName : String) (d : Deployment)
    (h : packageName ∈ d.packages) :
    ((flipActive packageName d).status == "active") = false := by
  unfold flipActive
  by_cases hs : d.status == "active" <;> simp_all

lemma flipActive_packages (packageName : String) (d : Deployment) :
    (flipActive packageName d).packages = d.packages := by
  unfold flipActive
  split <;> rfl

lemma countActive_cons (d : Deployment) (l : List Deployment) :
    countActive (d :: l) =
      (if d.status == "active" then 1 else 0) + countActive l := by
  unfold countActive
  by_cases h : d.status == "active" <;> simp [List.filter_cons, h, Nat.add_comm]

lemma countActive_flipped (packageName : String) (l : List Deployment)
    (h : ∀ d ∈ l, packageName ∈ d.packages) :
    countActive (l.map (flipActive packageName)) = 0 := by
  induction l with
  | nil => rfl
  | cons d l ih =>
    have hd := flipActive_not_active packageName d (h d (by simp))
    rw [List.map_cons, countActive_cons, hd]
    simp only [Bool.false_eq_true, if_false, Nat.zero_add]
    exact ih (fun x hx => h x (by simp [hx]))

lemma targetScoped_update (packageName : String) (dep : DeploymentInput)
    (v : VersionData) (h : targetScoped packageName v) :
    targetScoped packageName (updateVersionTracking packageName dep v) := by
  intro d hd
  simp only [updateVersionTracking, List.mem_cons, List.mem_map] at hd
  rcases hd with hd | ⟨e, he, rfl⟩
  · subst hd; simp [mkRecord]
  · rw [flipActive_packages]; exact h e he

lemma countActive_update (packageName : String) (dep : DeploymentInput)
    (v : VersionData) (h : targetScoped packageName v) :
    countActive (updateVersionTracking packageName dep v).deployments = 1 := by
  unfold updateVersionTracking
  rw [countActive_cons, countActive_flipped packageName _ h]
  simp [mkRecord]

lemma mem_insDesc {a x : Deployment} {l : List Deployment} :
    a ∈ insDesc x l ↔ a = x ∨ a ∈ l := by
  induction l with
  | nil => simp [insDesc]
  | cons y ys ih =>
    unfold insDesc
    split
    · simp [ih]; tauto
    · simp

lemma mem_sortDesc_aux {a : Deployment} (l acc : List Deployment) :
    a ∈ l.foldl (fun acc x => insDesc x acc) acc ↔ a ∈ l ∨ a ∈ acc := by
  induction l generalizing acc with
  | nil => simp
  | cons x xs ih =>
    simp only [List.foldl_cons, ih, mem_insDesc, List.mem_cons]
    tauto

lemma mem_sortDesc {a : Deployment} {l : List Deployment} :
    a ∈ sortDesc l ↔ a ∈ l := by
  unfold sortDesc
  rw [mem_sortDesc_aux]
  simp

lemma descSorted_insDesc {x : Deployment} {l : List Deployment}
    (h : DescSorted l) : DescSorted (insDesc x l) := by
  induction l with
  | nil => simp [insDesc, DescSorted]
  | cons y ys ih =>
    rcases (List.pairwise_cons.mp h) with ⟨hy, hys⟩
    unfold insDesc
    split
    · rename_i hle
      refine List.pairwise_cons.mpr ⟨?_, ih hys⟩
      intro b hb
      rcases mem_insDesc.mp hb with rfl | hb
      · exact hle
      · exact hy b hb
    · rename_i hgt
      push_neg at hgt
      refine List.pairwise_cons.mpr ⟨?_, h⟩
      intro b hb
      rcases List.mem_cons.mp hb with rfl | hb
      · exact Nat.le_of_lt hgt
      · exact Nat.le_trans (hy b hb) (Nat.le_of_lt hgt)

lemma descSorted_sortDesc_aux (l acc : List Deployment) (h : DescSorted acc) :
    DescSorted (l.foldl (fun acc x => insDesc x acc) acc) := by
  induction l generalizing acc with
  | nil => exact h
  | cons x xs ih => exact ih _ (descSorted_insDesc h)

lemma descSorted_sortDesc (l : List Deployment) : DescSorted (sortDesc l) :=
  descSorted_sortDesc_aux l [] (by simp [DescSorted])

lemma sortDesc_nonempty {l : List Deployment} (h : l ≠ []) :
    sortDesc l ≠ [] := by
  intro hs
  rcases List.exists_mem_of_ne_nil l h with ⟨a, ha⟩
  have : a ∈ sortDesc l := mem_sortDesc.mpr ha
  simp [hs] at this

/-- The head of the sorted list belongs to the original list and its
timestamp dominates every element's: `sorted[0]` is a most recent entry. -/
lemma sortDesc_head_max {l : List Deployment} {d : Deployment}
    (hd : (sortDesc l).head? = some d) :
    d ∈ l ∧ ∀ a ∈ l, a.timestamp ≤ d.timestamp := by
  have hmem : d ∈ sortDesc l := by
    cases hs : sortDesc l with
    | nil => simp [hs] at hd
    | cons x xs => simp [hs] at hd; subst hd; simp
  constructor
  · exact mem_sortDesc.mp hmem
  · intro a ha
    have hra : a ∈ sortDesc l := mem_sortDesc.mpr ha
    have hsorted := descSorted_sortDesc l
    cases hs : sortDesc l with
    | nil => simp [hs] at hd
    | cons x xs =>
      simp [hs] at hd
      subst hd
      rw [hs] at hra hsorted
      rcases List.mem_cons.mp hra with rfl | hra
      · exact Nat.le_refl _
      · exact (List.pairwise_cons.mp hsorted).1 a hra

lemma applyRecords_cons (packageName : String) (d : DeploymentInput)
    (ds : List DeploymentInput) (v : VersionData) :
    applyRecords packageName (d :: ds) v =
      applyRecords packageName ds (updateVersionTracking packageName d v) := rfl

lemma applyRecords_invariant (packageName : String) (ds : List DeploymentInput)
    (v : VersionData) (hs : targetScoped packageName v) (hc : atMostOneActive v) :
    targetScoped packageName (applyRecords packageName ds v) ∧
    atMostOneActive (applyRecords packageName ds v) := by
  induction ds generalizing v with
  | nil => exact ⟨hs, hc⟩
  | cons d ds ih =>
    rw [applyRecords_cons]
    refine ih _ (targetScoped_update _ _ _ hs) ?_
    unfold atMostOneActive
    rw [countActive_update _ _ _ hs]

lemma targetScoped_empty (packageName : String) :
    targetScoped packageName emptyVersionData := by
  intro d hd
  simp [emptyVersionData] at hd

lemma filter_ne_of_not_mem {rp : String × String} {l : List (String × String)}
    (h : rp ∉ l) : l.filter (fun p => !(p == rp)) = l := by
  apply List.filter_eq_self.mpr
  intro p hp
  have hne : p ≠ rp := fun he => h (he ▸ hp)
  simp [hne]

lemma cleanupFailed_fresh (rp : String × String) (s : FsTarget) (h : rp ∉ s.disk) :
    cleanupFailedDeployment rp s = s := by
  unfold cleanupFailedDeployment
  rw [filter_ne_of_not_mem h]

lemma cleanupFailed_staged (a : DeployArgs) (s0 : FsTarget)
    (h : releasePair a ∉ s0.disk) :
    cleanupFailedDeployment (releasePair a) (stagedState a s0) = s0 := by
  have hc : s0.disk.contains (releasePair a) = false := by simpa using h
  unfold cleanupFailedDeployment stagedState
  simp only [hc, Bool.false_eq_true, if_false, List.filter_append]
  rw [filter_ne_of_not_mem h]
  simp

lemma removeLoop_abort (failRemove : String → Bool) (pre : List String) (d : String)
    (post disk : List String)
    (h₁ : ∀ y ∈ pre, failRemove y = false) (h₂ : failRemove d = true) :
    (removeLoop failRemove (pre ++ d :: post) disk).1 = some d ∧
    ∀ x ∈ disk, x ∉ pre → x ∈ (removeLoop failRemove (pre ++ d :: post) disk).2 := by
  induction pre generalizing disk with
  | nil =>
    constructor
    · simp [removeLoop, h₂]
    · intro x hx _
      simpa [removeLoop, h₂] using hx
  | cons y ys ih =>
    have hy : failRemove y = false := h₁ y (by simp)
    have hstep : removeLoop failRemove ((y :: ys) ++ d :: post) disk =
        removeLoop failRemove (ys ++ d :: post) (disk.filter (fun x => x != y)) := by
      simp [removeLoop, hy]
    obtain ⟨ha, hb⟩ := ih (disk.filter (fun x => x != y))
      (fun z hz => h₁ z (by simp [hz]))
    rw [hstep]
    refine ⟨ha, ?_⟩
    intro x hx hxpre
    have hxy : x ≠ y := fun he => hxpre (by simp [he])
    have hxys : x ∉ ys := fun hm => hxpre (by simp [hm])
    exact hb x (List.mem_filter.mpr ⟨hx, by simp [hxy]⟩) hxys

/-! ## Claims -/

/-- C1: the claim says commit-level retention keeps exactly the commit
directories of the N most recent distinct ledger commits and never deletes
the active entry's release directory.  The code computes the keep set from
the ledger's FULL commit hashes but compares it against the SHORT-hash
directory names on disk, so with six on-disk commit directories named by
`exC1Ledger`'s six commits, retention removes every directory — including
`shortCommit commitF`, the directory holding the release of the active
ledger entry. -/
theorem C1_commit_retention_removes_all :
    exC1Ledger.deployments.head? =
      some (mkEntry commitF "2025-09-14-15-00-fffffff" 6 "active" "2025-09-14-15-00") ∧
    (mkEntry commitF "2025-09-14-15-00-fffffff" 6 "active" "2025-09-14-15-00").status
      = "active" ∧
    shortCommit commitF ∈ exC1Dirs ∧
    cleanupCommits (fun _ => false) exC1Dirs exC1Ledger = (none, []) := by
  refine ⟨by decide, by decide, by decide, by decide⟩

/-- C2 counterexample: the claim says the Current Pointer is written by
create-new-then-atomic-rename so that no reader can ever observe a missing
pointer, and the ledger write is likewise atomic.  The observable trace of
`updateSymlink` at a concrete repointing contains the state `none` — a
reader between the `fs.remove` and the `fs.symlink` sees no pointer at
all — and the ledger persist's observable trace contains a torn view. -/
theorem C2_counterexample :
    updateSymlinkStates (getReleasePath commitB "2025-09-14-10-00")
        (some (getReleasePath commitA "2025-09-13-10-00")) =
      [some (getReleasePath commitA "2025-09-13-10-00"), none,
        some (getReleasePath commitB "2025-09-14-10-00")] ∧
    none ∈ updateSymlinkStates (getReleasePath commitB "2025-09-14-10-00")
        (some (getReleasePath commitA "2025-09-13-10-00")) ∧
    LedgerFileView.torn ∈ writeLedgerStates exC1Ledger (.content emptyVersionData) := by
  refine ⟨by decide, by decide, by decide⟩

/-- C2 amended: `updateSymlink` repoints the Current Pointer by removing
the existing link and then creating the new one, so whenever a link
existed a reader can observe a missing pointer between the two operations;
the ledger is persisted by a single in-place `fs.writeJson` with an
observable torn-file window, not by temp-write-then-rename.  After either
write completes, readers see the new pointer target and the new ledger
contents; an atomic rename write would have no torn window. -/
theorem C2_amended_nonatomic_writes (target : String) (link : Option String)
    (v : VersionData) (f : LedgerFileView) (h : link.isSome = true) :
    none ∈ updateSymlinkStates target link ∧
    (updateSymlinkStates target link).getLast? = some (some target) ∧
    LedgerFileView.torn ∈ writeLedgerStates v f ∧
    (writeLedgerStates v f).getLast? = some (LedgerFileView.content v) ∧
    (f ≠ .torn → LedgerFileView.torn ∉ writeLedgerAtomicStates v f) := by
  refine ⟨?_, ?_, ?_, ?_, ?_⟩
  · simp [updateSymlinkStates, h]
  · simp [updateSymlinkStates, h]
  · simp [writeLedgerStates]
  · simp [writeLedgerStates]
  · intro hf
    simp [writeLedgerAtomicStates]
    exact fun hc => hf hc.symm

/-- C2 witness: the amended statement at a concrete repointing. -/
theorem C2_amended_nonatomic_writes_witness :
    none ∈ updateSymlinkStates (getReleasePath commitB "2025-09-14-10-00")
        (some (getReleasePath commitA "2025-09-13-10-00")) ∧
    (updateSymlinkStates (getReleasePath commitB "2025-09-14-10-00")
        (some (getReleasePath commitA "2025-09-13-10-00"))).getLast? =
      some (some (getReleasePath commitB "2025-09-14-10-00")) ∧
    LedgerFileView.torn ∈ writeLedgerStates exC1Ledger (.content emptyVersionData) ∧
    (writeLedgerStates exC1Ledger (.content emptyVersionData)).getLast? =
      some (LedgerFileView.content exC1Ledger) ∧
    (LedgerFileView.content emptyVersionData ≠ .torn →
      LedgerFileView.torn ∉ writeLedgerAtomicStates exC1Ledger (.content emptyVersionData)) :=
  C2_amended_nonatomic_writes (getReleasePath commitB "2025-09-14-10-00")
    (some (getReleasePath commitA "2025-09-13-10-00")) exC1Ledger
    (.content emptyVersionData) (by decide)

/-- C4 counterexample: the claim says `updateVersionTracking` is
idempotent for an identical entry.  Recording `exDep` twice from the empty
ledger does not equal recording it once: the second call prepends a
duplicate entry and flips the first copy to inactive. -/
theorem C4_counterexample :
    updateVersionTracking "client" exDep
        (updateVersionTracking "client" exDep emptyVersionData) ≠
      updateVersionTracking "client" exDep emptyVersionData := by decide

/-- C4 amended: the record operation is NOT idempotent.  Recording the
same entry twice grows the ledger by one more entry; the resulting history
starts with a fresh active copy of the entry followed by the first call's
copy flipped to inactive.  Callers must deduplicate by version label
themselves (as the spec's caller-facing warning already suggests). -/
theorem C4_amended_double_record (packageName : String) (dep : DeploymentInput)
    (v : VersionData) :
    (updateVersionTracking packageName dep
        (updateVersionTracking packageName dep v)).deployments.length =
      (updateVersionTracking packageName dep v).deployments.length + 1 ∧
    (updateVersionTracking packageName dep
        (updateVersionTracking packageName dep v)).deployments.take 2 =
      [mkRecord packageName dep, { mkRecord packageName dep with status := "inactive" }] := by
  constructor
  · simp [updateVersionTracking]
  · simp [updateVersionTracking, flipActive, mkRecord]

/-- C9: the claim says the deploy CLI exits 0 on every successful run,
including a successful `--dry-run`.  The code violates this for dry runs:
`deploy` returns `undefined` from the dry-run branch, so the CLI's
`result?.success` test fails and it exits 1 even though the dry run
succeeded.  (Non-dry successes do exit 0, and every thrown error exits 1,
so the rest of the claim matches the code.) -/
theorem C9_dry_run_exit_code :
    deploy (fun _ => false) (fun _ => false) exC9DryArgs exC9State = (.ok none, exC9State) ∧
    deployCliExitCode
        (deploy (fun _ => false) (fun _ => false) exC9DryArgs exC9State).1 = 1 ∧
    deployCliExitCode
        (deploy (fun _ => false) (fun _ => false) exC9WetArgs exC9State).1 = 0 ∧
    (∀ e : DeployError, deployCliExitCode (.err e) = 1) := by
  refine ⟨by decide, by decide, by decide, fun e => rfl⟩

/-- C5: for a target-scoped ledger (every entry lists the package, as is
true of every ledger this target's version file can contain), one record
operation flips every previously active entry for the package to inactive,
prepends the single new active record, and leaves exactly one active
entry; consequently along every sequence of record operations from the
empty ledger, at most one entry is active before and after each step. -/
theorem C5_single_active (packageName : String) (dep : DeploymentInput)
    (v : VersionData) (h : targetScoped packageName v) :
    countActive (updateVersionTracking packageName dep v).deployments = 1 ∧
    (updateVersionTracking packageName dep v).deployments.head? =
      some (mkRecord packageName dep) ∧
    (∀ d ∈ (updateVersionTracking packageName dep v).deployments.tail,
        (d.status == "active") = false) ∧
    (∀ ds : List DeploymentInput,
        atMostOneActive (applyRecords packageName ds emptyVersionData)) := by
  refine ⟨countActive_update _ _ _ h, rfl, ?_, ?_⟩
  · intro d hd
    simp only [updateVersionTracking, List.tail_cons, List.mem_map] at hd
    obtain ⟨e, he, rfl⟩ := hd
    exact flipActive_not_active packageName e (h e he)
  · intro ds
    exact (applyRecords_invariant packageName ds emptyVersionData
      (targetScoped_empty packageName) (by simp [atMostOneActive, emptyVersionData, countActive])).2

/-- C5 witness: the single-active property at a concrete record operation
on the six-entry example ledger. -/
theorem C5_single_active_witness :
    countActive (updateVersionTracking "client" exDep exC1Ledger).deployments = 1 ∧
    (updateVersionTracking "client" exDep exC1Ledger).deployments.head? =
      some (mkRecord "client" exDep) ∧
    (∀ d ∈ (updateVersionTracking "client" exDep exC1Ledger).deployments.tail,
        (d.status == "active") = false) ∧
    (∀ ds : List DeploymentInput,
        atMostOneActive (applyRecords "client" ds emptyVersionData)) :=
  C5_single_active "client" exDep exC1Ledger (by decide)

/-- C10: calling `findRollbackTarget` with an attempt timestamp but no
commit silently ignores the attempt option: the result is exactly the
default mode-(a) selection (`findPreviousDeployment`, the most recent
entry whose status is not active), identical to calling with no options at
all — no error about the attempt requiring a commit is raised. -/
theorem C10_attempt_without_commit_ignored (vh : VersionData) (a : String)
    (h : vh.deployments ≠ []) :
    findRollbackTarget vh { commit := none, attempt := some a } =
      findPreviousDeployment vh ∧
    findRollbackTarget vh { commit := none, attempt := some a } =
      findRollbackTarget vh { commit := none, attempt := none } ∧
    (∀ d, findPreviousDeployment vh = .ok d →
      d ∈ vh.deployments ∧ d.status ≠ "active" ∧
      ∀ e ∈ vh.deployments, e.status ≠ "active" → e.timestamp ≤ d.timestamp) := by
  have he : vh.deployments.isEmpty = false := by
    cases hl : vh.deployments with
    | nil => exact absurd hl h
    | cons x xs => rfl
  refine ⟨by simp [findRollbackTarget, he], by simp [findRollbackTarget, he], ?_⟩
  intro d hd
  simp only [findPreviousDeployment] at hd
  cases hh : (sortDesc (vh.deployments.filter (fun d => d.status != "active"))).head? with
  | none => rw [hh] at hd; cases hd
  | some d' =>
    rw [hh] at hd
    have hdd : d' = d := by cases hd; rfl
    subst hdd
    obtain ⟨hmem, hmax⟩ := sortDesc_head_max hh
    have hmem' := List.mem_filter.mp hmem
    refine ⟨hmem'.1, by simpa using hmem'.2, ?_⟩
    intro e hemem hest
    exact hmax e (List.mem_filter.mpr ⟨hemem, by simpa using hest⟩)

/-- C10 witness: on the six-entry example ledger, a lone attempt option is
ignored and the most recent inactive entry is selected. -/
theorem C10_attempt_without_commit_ignored_witness :
    (findRollbackTarget exC1Ledger { commit := none, attempt := some "2025-09-10-15-00" } =
        findPreviousDeployment exC1Ledger ∧
      findRollbackTarget exC1Ledger { commit := none, attempt := some "2025-09-10-15-00" } =
        findRollbackTarget exC1Ledger { commit := none, attempt := none } ∧
      (∀ d, findPreviousDeployment exC1Ledger = .ok d →
        d ∈ exC1Ledger.deployments ∧ d.status ≠ "active" ∧
        ∀ e ∈ exC1Ledger.deployments, e.status ≠ "active" →
          e.timestamp ≤ d.timestamp)) :=
  C10_attempt_without_commit_ignored exC1Ledger "2025-09-10-15-00" (by decide)

/-- C7 counterexample: the claim says selection by commit returns the most
recent entry whose commit "equals or is a prefix of" the supplied hash,
and errors when no such entry exists.  Supplying the short hash
`"aaaaaaa"` of `commitA`: no ledger entry's 40-character commit equals or
is a prefix of the 7-character supplied hash (the claim's criterion
matches nothing, so it demands a CommitNotFound error), yet the code
returns the `commitA` entry — it matches in the opposite direction, the
supplied hash being a prefix of the stored commit. -/
theorem C7_counterexample :
    (∀ e ∈ exC1Ledger.deployments, specCommitMatches "aaaaaaa" e = false) ∧
    findRollbackTarget exC1Ledger { commit := some "aaaaaaa", attempt := none } =
      .ok (mkEntry commitA "2025-09-09-15-00-aaaaaaa" 1 "inactive" "2025-09-09-15-00") := by
  refine ⟨by decide, by decide⟩

/-- C7 amended: rollback target selection by commit returns the most
recent ledger entry whose commit equals the supplied hash or starts with
it (the supplied hash being a prefix — e.g. a short form — of the stored
commit), and raises the CommitNotFound error when no entry's commit starts
with the supplied hash; when an attempt timestamp is also supplied, it
returns the first matching entry whose release path's trailing timestamp
component equals it exactly, else the AttemptNotFound error. -/
theorem C7_amended_selection (vh : VersionData) (c : String)
    (hne : vh.deployments ≠ []) :
    (∀ d, findRollbackTarget vh { commit := some c, attempt := none } = .ok d →
        d ∈ vh.deployments ∧ commitMatches c d = true ∧
        ∀ e ∈ vh.deployments, commitMatches c e = true → e.timestamp ≤ d.timestamp) ∧
    ((∀ e ∈ vh.deployments, commitMatches c e = false) →
        findRollbackTarget vh { commit := some c, attempt := none } =
          .error (.commitNotFound c)) ∧
    (∀ (a : String) (d : Deployment),
        findRollbackTarget vh { commit := some c, attempt := some a } = .ok d →
        d ∈ vh.deployments ∧ commitMatches c d = true ∧
        trailingComponent d.releasePath = a) ∧
    (∀ a : String, (∃ e ∈ vh.deployments, commitMatches c e = true) →
        (∀ e ∈ vh.deployments, commitMatches c e = true →
            trailingComponent e.releasePath ≠ a) →
        findRollbackTarget vh { commit := some c, attempt := some a } =
          .error (.attemptNotFound a)) := by
  have he : vh.deployments.isEmpty = false := by
    cases hl : vh.deployments with
    | nil => exact absurd hl hne
    | cons x xs => rfl
  refine ⟨?_, ?_, ?_, ?_⟩
  · intro d hd
    simp only [findRollbackTarget, he, Bool.false_eq_true, if_false] at hd
    by_cases hL : (vh.deployments.filter (commitMatches c)).isEmpty
    · rw [if_pos hL] at hd; cases hd
    · rw [if_neg hL] at hd
      cases hh : (sortDesc (vh.deployments.filter (commitMatches c))).head? with
      | none => rw [hh] at hd; cases hd
      | some d' =>
        rw [hh] at hd
        have hdd : d' = d := by cases hd; rfl
        subst hdd
        obtain ⟨hmem, hmax⟩ := sortDesc_head_max hh
        have hmem' := List.mem_filter.mp hmem
        refine ⟨hmem'.1, hmem'.2, ?_⟩
        intro e hemem hematch
        exact hmax e (List.mem_filter.mpr ⟨hemem, hematch⟩)
  · intro hall
    have hnil : vh.deployments.filter (commitMatches c) = [] := by
      rw [List.filter_eq_nil_iff]
      intro e hemem
      rw [hall e hemem]
      simp
    simp [findRollbackTarget, he, hnil]
  · intro a d hd
    simp only [findRollbackTarget, he, Bool.false_eq_true, if_false] at hd
    by_cases hL : (vh.deployments.filter (commitMatches c)).isEmpty
    · rw [if_pos hL] at hd; cases hd
    · rw [if_neg hL] at hd
      simp only [findSpecificAttempt] at hd
      cases hf : (vh.deployments.filter (commitMatches c)).find?
          (fun d => trailingComponent d.releasePath == a) with
      | none => rw [hf] at hd; cases hd
      | some d' =>
        rw [hf] at hd
        have hdd : d' = d := by cases hd; rfl
        subst hdd
        have hmem := List.mem_filter.mp (List.mem_of_find?_eq_some hf)
        have hpred := List.find?_some hf
        exact ⟨hmem.1, hmem.2, by simpa using hpred⟩
  · intro a hex hall
    obtain ⟨e, hemem, hematch⟩ := hex
    have hL : (vh.deployments.filter (commitMatches c)).isEmpty = false := by
      cases hl : vh.deployments.filter (commitMatches c) with
      | nil =>
        have := (List.filter_eq_nil_iff.mp hl) e hemem
        rw [hematch] at this
        cases this rfl
      | cons x xs => rfl
    have hfind : (vh.deployments.filter (commitMatches c)).find?
        (fun d => trailingComponent d.releasePath == a) = none := by
      rw [List.find?_eq_none]
      intro x hx
      have hx' := List.mem_filter.mp hx
      have := hall x hx'.1 hx'.2
      simpa using this
    simp [findRollbackTarget, he, hL, findSpecificAttempt, hfind]

/-- C7 witness: the amended selection at concrete inputs — short hash
`"fffffff"` selects the `commitF` entry (the only and most recent match),
and the attempt form selects it by exact trailing timestamp. -/
theorem C7_amended_selection_witness :
    ((∀ d, findRollbackTarget exC1Ledger { commit := some "fffffff", attempt := none } = .ok d →
        d ∈ exC1Ledger.deployments ∧ commitMatches "fffffff" d = true ∧
        ∀ e ∈ exC1Ledger.deployments, commitMatches "fffffff" e = true →
          e.timestamp ≤ d.timestamp) ∧
    ((∀ e ∈ exC1Ledger.deployments, commitMatches "fffffff" e = false) →
        findRollbackTarget exC1Ledger { commit := some "fffffff", attempt := none } =
          .error (.commitNotFound "fffffff")) ∧
    (∀ (a : String) (d : Deployment),
        findRollbackTarget exC1Ledger { commit := some "fffffff", attempt := some a } = .ok d →
        d ∈ exC1Ledger.deployments ∧ commitMatches "fffffff" d = true ∧
        trailingComponent d.releasePath = a) ∧
    (∀ a : String, (∃ e ∈ exC1Ledger.deployments, commitMatches "fffffff" e = true) →
        (∀ e ∈ exC1Ledger.deployments, commitMatches "fffffff" e = true →
            trailingComponent e.releasePath ≠ a) →
        findRollbackTarget exC1Ledger { commit := some "fffffff", attempt := some a } =
          .error (.attemptNotFound a))) :=
  C7_amended_selection exC1Ledger "fffffff" (by decide)

/-- C8: when the selected rollback target's release directory no longer
exists on disk, or exists but lacks the expected `packages` layout, the
rollback pipeline fails with one of the two distinct stale-target errors
(`targetDirNotFound` / `invalidTargetLayout`, the dedicated throw sites of
`validateRollbackTarget`) and returns the state exactly as it was: the
Current Pointer and the Ledger are untouched — validation runs before the
environment copy, the symlink update and the ledger record. -/
theorem C8_stale_target_no_mutation (fc fp fh : Bool) (a : RollbackArgs)
    (s : HostState) (t : Deployment)
    (hfind : findRollbackTarget (readHistory s)
        { commit := a.commit, attempt := a.attempt } = .ok t)
    (hpath : t.releasePath.isEmpty = false)
    (hstale : s.dirs.contains t.releasePath = false ∨
        s.dirs.contains (t.releasePath ++ "/packages") = false) :
    rollback fc fp fh a s =
        (some (RollbackError.targetDirNotFound t.releasePath), s) ∨
    rollback fc fp fh a s =
        (some (RollbackError.invalidTargetLayout t.releasePath), s) := by
  unfold rollback
  rw [hfind]
  unfold validateRollbackTarget
  rcases hstale with hs1 | hs2
  · left
    have h1 : t.releasePath ∉ s.dirs := by simpa using hs1
    simp [hpath, h1]
  · by_cases hdir : t.releasePath ∈ s.dirs
    · right
      have h2 : t.releasePath ++ "/packages" ∉ s.dirs := by simpa using hs2
      simp [hpath, hdir, h2]
    · left
      simp [hpath, hdir]

/-- C8 witness: rolling back on a host whose disk no longer holds the
selected target's release directory fails with `targetDirNotFound` and
leaves the state unchanged. -/
theorem C8_stale_target_no_mutation_witness :
    (rollback false false false
        { packageName := "client", commit := none, attempt := none, nowTimestamp := 200 }
        exC8State =
      (some (RollbackError.targetDirNotFound
        (mkEntry commitE "2025-09-13-15-00-eeeeeee" 5 "inactive" "2025-09-13-15-00").releasePath),
        exC8State) ∨
    rollback false false false
        { packageName := "client", commit := none, attempt := none, nowTimestamp := 200 }
        exC8State =
      (some (RollbackError.invalidTargetLayout
        (mkEntry commitE "2025-09-13-15-00-eeeeeee" 5 "inactive" "2025-09-13-15-00").releasePath),
        exC8State)) :=
  C8_stale_target_no_mutation false false false
    { packageName := "client", commit := none, attempt := none, nowTimestamp := 200 }
    exC8State
    (mkEntry commitE "2025-09-13-15-00-eeeeeee" 5 "inactive" "2025-09-13-15-00")
    (by decide) (by decide) (Or.inl (by decide))

/-- C6: a promotion that fails at or before the isolated health check (any
of the validating, staging, extract, copy-env, install, isolated-health
operations throws) leaves the Current Pointer and the Ledger file exactly
as they were before the call and leaves no release directory for the
attempt on disk: the compensating `cleanupFailedDeployment` in the `catch`
block removes the staged directory before the error propagates, and none
of these steps touches the pointer or the ledger.  (`hfresh` says the
attempt's release directory did not pre-exist, i.e. this wall-clock-minute
attempt is fresh.) -/
theorem C6_early_failure_frame (fail : DeployStep → Bool) (failRemove : String → Bool)
    (a : DeployArgs) (s0 : FsTarget)
    (hdry : a.dryRun = false)
    (hfresh : releasePair a ∉ s0.disk)
    (hearly : fail .validating = true ∨ fail .staging = true ∨ fail .extract = true ∨
        fail .copyEnv = true ∨ fail .install = true ∨ fail .isolatedHealth = true) :
    (∃ e, (deploy fail failRemove a s0).1 = .err e) ∧
    (deploy fail failRemove a s0).2 = s0 := by
  by_cases h1 : fail .validating
  · exact ⟨⟨.step .validating, by simp [deploy, h1]⟩, by simp [deploy, h1]⟩
  · by_cases h2 : fail .staging
    · refine ⟨⟨.step .staging, by simp [deploy, h1, hdry, h2]⟩, ?_⟩
      simp [deploy, h1, hdry, h2, cleanupFailed_fresh _ _ hfresh]
    · by_cases h3 : fail .extract
      · refine ⟨⟨.step .extract, by simp [deploy, h1, hdry, h2, h3]⟩, ?_⟩
        simp [deploy, h1, hdry, h2, h3, cleanupFailed_staged a s0 hfresh]
      · by_cases h4 : fail .copyEnv
        · refine ⟨⟨.step .copyEnv, by simp [deploy, h1, hdry, h2, h3, h4]⟩, ?_⟩
          simp [deploy, h1, hdry, h2, h3, h4, cleanupFailed_staged a s0 hfresh]
        · by_cases h5 : fail .install
          · refine ⟨⟨.step .install, by simp [deploy, h1, hdry, h2, h3, h4, h5]⟩, ?_⟩
            simp [deploy, h1, hdry, h2, h3, h4, h5, cleanupFailed_staged a s0 hfresh]
          · have h6 : fail .isolatedHealth = true := by tauto
            refine ⟨⟨.step .isolatedHealth,
              by simp [deploy, h1, hdry, h2, h3, h4, h5, h6]⟩, ?_⟩
            simp [deploy, h1, hdry, h2, h3, h4, h5, h6,
              cleanupFailed_staged a s0 hfresh]

/-- C6 witness: a failure in the isolated health check on a fresh target
leaves the (empty) state untouched and propagates an error. -/
theorem C6_early_failure_frame_witness :
    (∃ e, (deploy (fun st => st == DeployStep.isolatedHealth) (fun _ => false)
        exC9WetArgs exC9State).1 = .err e) ∧
    (deploy (fun st => st == DeployStep.isolatedHealth) (fun _ => false)
        exC9WetArgs exC9State).2 = exC9State :=
  C6_early_failure_frame (fun st => st == DeployStep.isolatedHealth) (fun _ => false)
    exC9WetArgs exC9State (by decide) (by decide)
    (by right; right; right; right; right; decide)

/-- C3 counterexample: the claim says a deletion error for one retention
candidate neither aborts the remaining deletions nor fails the deployment.
On `exC3State` (six old commit directories) deploying `commitG` reaches
retention with seven commit directories; the first candidate's `fs.remove`
fails, and the deploy operation reports failure (`.err (.retention ...)`)
while the later candidate `bbbbbbb` is still on disk — the loop aborted.
The `catch` block even deletes the just-promoted release directory. -/
theorem C3_counterexample :
    (deploy (fun _ => false) (fun d => d == shortCommit commitA)
        exC3Args exC3State).1 = .err (.retention (shortCommit commitA)) ∧
    (shortCommit commitB, "2025-09-10-15-00") ∈
      (deploy (fun _ => false) (fun d => d == shortCommit commitA)
        exC3Args exC3State).2.disk ∧
    releasePair exC3Args ∉
      (deploy (fun _ => false) (fun d => d == shortCommit commitA)
        exC3Args exC3State).2.disk := by
  refine ⟨by decide, by decide, by decide⟩

/-- C3 amended: a deletion error for one retention candidate aborts the
removal loop (the error propagates and every candidate from the failing
one on, and every directory not yet processed, is left on disk), and the
error propagates out of `cleanupDeployments` into the deploy `catch`
block: the deployment — although already promoted and recorded — reports
failure, after `cleanupFailedDeployment` has removed the just-promoted
release directory. -/
theorem C3_amended_retention_propagates (failRemove : String → Bool)
    (pre : List String) (d x : String) (post disk : List String)
    (fail : DeployStep → Bool) (a : DeployArgs) (s0 : FsTarget)
    (e : String) (diskAfter : List (String × String))
    (h₁ : ∀ y ∈ pre, failRemove y = false) (h₂ : failRemove d = true)
    (hx : x ∈ disk) (hxpre : x ∉ pre)
    (hfail : ∀ st, fail st = false) (hdry : a.dryRun = false)
    (hclean : cleanupDeployments failRemove (getVersionHistory (recordedState a s0))
        (recordedState a s0).disk = (some e, diskAfter)) :
    (removeLoop failRemove (pre ++ d :: post) disk).1 = some d ∧
    x ∈ (removeLoop failRemove (pre ++ d :: post) disk).2 ∧
    deploy fail failRemove a s0 =
      (.err (.retention e),
        cleanupFailedDeployment (releasePair a) { recordedState a s0 with disk := diskAfter }) := by
  obtain ⟨ha, hb⟩ := removeLoop_abort failRemove pre d post disk h₁ h₂
  refine ⟨ha, hb x hx hxpre, ?_⟩
  simp [deploy, hfail, hdry, hclean]

/-- C3 witness: the amended behaviour at the concrete C3 run. -/
theorem C3_amended_retention_propagates_witness :
    ((removeLoop (fun d => d == shortCommit commitA)
        ([] ++ shortCommit commitA :: [shortCommit commitB])
        [shortCommit commitA, shortCommit commitB]).1 = some (shortCommit commitA) ∧
    shortCommit commitB ∈ (removeLoop (fun d => d == shortCommit commitA)
        ([] ++ shortCommit commitA :: [shortCommit commitB])
        [shortCommit commitA, shortCommit commitB]).2 ∧
    deploy (fun _ => false) (fun d => d == shortCommit commitA) exC3Args exC3State =
      (.err (.retention (shortCommit commitA)),
        cleanupFailedDeployment (releasePair exC3Args)
          { recordedState exC3Args exC3State with disk := exC3DiskAfter })) :=
  C3_amended_retention_propagates (fun d => d == shortCommit commitA)
    [] (shortCommit commitA) (shortCommit commitB) [shortCommit commitB]
    [shortCommit commitA, shortCommit commitB]
    (fun _ => false) exC3Args exC3State (shortCommit commitA) exC3DiskAfter
    (by intro y hy; cases hy) (by decide) (by decide) (by decide)
    (by intro st; rfl) (by decide) (by decide)

end DeploySys
